import Mathlib

/-!
Shallow embedding of the image-source resolution, caching and rendering core of
the Divergences Plus Obsidian plugin (src/utils/image-utils.ts,
src/ui/background-picker-overlay.ts, src/integrations/local-vault-server.ts),
together with theorems settling the specification claims.

External host collaborators (Obsidian vault API, JS string/URL builtins, HTTP
transport, DOM parsing, JSON parsing, locale comparison) are modelled either as
explicit executable functions (marked "Models ...") or as function parameters,
exactly at the boundaries where the TypeScript source calls out of its own code.
-/

namespace DivPlus

/-! ### Models of JS string builtins, over character lists -/

/-- Models JS `String.prototype.trim`: strip leading and trailing whitespace. -/
def jsTrim (s : String) : String :=
  ⟨((s.data.dropWhile Char.isWhitespace).reverse.dropWhile Char.isWhitespace).reverse⟩

/-- Models `str.replace(/c+$/, "")`: drop all trailing occurrences of `c`. -/
def dropTrailing (c : Char) (s : String) : String :=
  ⟨(s.data.reverse.dropWhile (· = c)).reverse⟩

/-- Models `str.replace(/^c+/, "")`: drop all leading occurrences of `c`. -/
def dropLeading (c : Char) (s : String) : String :=
  ⟨s.data.dropWhile (· = c)⟩

/-- Models JS `String.prototype.split` with a single-character separator:
`"".split(c) = [""]`, separators at the ends produce empty segments. -/
def splitChar (c : Char) : List Char → List (List Char)
  | [] => [[]]
  | x :: xs =>
    let r := splitChar c xs
    if x = c then [] :: r
    else
      match r with
      | [] => [[x]]
      | h :: t => (x :: h) :: t

/-- Models `Array.prototype.join` with a single-character separator. -/
def joinChar (c : Char) : List (List Char) → List Char
  | [] => []
  | [s] => s
  | s :: (h :: t) => s ++ c :: joinChar c (h :: t)

/-- `split` wrapped on `String`. -/
def jsSplit (c : Char) (s : String) : List String :=
  (splitChar c s.data).map (fun l => ⟨l⟩)

/-- `join` wrapped on `String`. -/
def jsJoin (c : Char) (l : List String) : String :=
  ⟨joinChar c (l.map String.data)⟩

/-- Models JS `String.prototype.startsWith`. -/
def strStarts (s pre : String) : Bool :=
  pre.data.isPrefixOf s.data

/-- Models JS `String.prototype.endsWith`. -/
def strEnds (s suf : String) : Bool :=
  suf.data.isSuffixOf s.data

/-- Models JS `String.prototype.slice(n)` (start index only). -/
def sliceFrom (s : String) (n : Nat) : String :=
  ⟨s.data.drop n⟩

/-! ### Model of the percent-encoding builtins (`encodeURIComponent`,
`decodeURIComponent`) used by `encodePath` / `decodePathSegments` -/

/-- Characters `encodeURIComponent` leaves unescaped. -/
def isUnreservedChar (c : Char) : Bool :=
  c.isAlpha || c.isDigit ||
    (c = '-' || c = '_' || c = '.' || c = '!' || c = '~' || c = '*' ||
     c = '\'' || c = '(' || c = ')')

def hexDigitChar (n : Nat) : Char :=
  (List.getD ['0','1','2','3','4','5','6','7','8','9','A','B','C','D','E','F'] n '0')

/-- UTF-8 bytes of a character, as naturals. -/
def utf8Bytes (c : Char) : List Nat :=
  let n := c.toNat
  if n < 0x80 then [n]
  else if n < 0x800 then [0xC0 + n / 0x40, 0x80 + n % 0x40]
  else if n < 0x10000 then
    [0xE0 + n / 0x1000, 0x80 + (n / 0x40) % 0x40, 0x80 + n % 0x40]
  else
    [0xF0 + n / 0x40000, 0x80 + (n / 0x1000) % 0x40, 0x80 + (n / 0x40) % 0x40,
     0x80 + n % 0x40]

def pctByte (b : Nat) : List Char :=
  ['%', hexDigitChar (b / 16), hexDigitChar (b % 16)]

/-- Models the JS builtin `encodeURIComponent` (UTF-8 percent-encoding). -/
def encodeURIComponentModel (s : String) : String :=
  ⟨s.data.flatMap (fun c =>
    if isUnreservedChar c then [c] else (utf8Bytes c).flatMap pctByte)⟩

def hexVal (c : Char) : Option Nat :=
  if '0' ≤ c ∧ c ≤ '9' then some (c.toNat - '0'.toNat)
  else if 'a' ≤ c ∧ c ≤ 'f' then some (c.toNat - 'a'.toNat + 10)
  else if 'A' ≤ c ∧ c ≤ 'F' then some (c.toNat - 'A'.toNat + 10)
  else none

/-- Consume a maximal run of `%HH` triples; `none` on a malformed escape. -/
def pctRun : List Char → Option (List Nat × List Char)
  | '%' :: h1 :: h2 :: rest =>
    match hexVal h1, hexVal h2 with
    | some v1, some v2 =>
      match pctRun rest with
      | some (bs, rem) => some ((v1 * 16 + v2) :: bs, rem)
      | none => none
    | _, _ => none
  | '%' :: _ => none
  | cs => some ([], cs)

/-- Decode a UTF-8 byte sequence; `none` on a malformed sequence. -/
def utf8Decode : List Nat → Option (List Char)
  | [] => some []
  | b :: bs =>
    if b < 0x80 then
      match utf8Decode bs with
      | some cs => some (Char.ofNat b :: cs)
      | none => none
    else if b < 0xC0 then none
    else if b < 0xE0 then
      match bs with
      | b2 :: rest =>
        if 0x80 ≤ b2 ∧ b2 < 0xC0 then
          match utf8Decode rest with
          | some cs => some (Char.ofNat ((b - 0xC0) * 0x40 + (b2 - 0x80)) :: cs)
          | none => none
        else none
      | [] => none
    else if b < 0xF0 then
      match bs with
      | b2 :: b3 :: rest =>
        if (0x80 ≤ b2 ∧ b2 < 0xC0) ∧ (0x80 ≤ b3 ∧ b3 < 0xC0) then
          match utf8Decode rest with
          | some cs =>
            some (Char.ofNat ((b - 0xE0) * 0x1000 + (b2 - 0x80) * 0x40 + (b3 - 0x80)) :: cs)
          | none => none
        else none
      | _ => none
    else if b < 0xF8 then
      match bs with
      | b2 :: b3 :: b4 :: rest =>
        if (0x80 ≤ b2 ∧ b2 < 0xC0) ∧ (0x80 ≤ b3 ∧ b3 < 0xC0) ∧ (0x80 ≤ b4 ∧ b4 < 0xC0) then
          match utf8Decode rest with
          | some cs =>
            some (Char.ofNat ((b - 0xF0) * 0x40000 + (b2 - 0x80) * 0x1000 +
              (b3 - 0x80) * 0x40 + (b4 - 0x80)) :: cs)
          | none => none
        else none
      | _ => none
    else none

/-- Fuel-indexed scan: non-escape characters pass through unchanged, each run
of `%HH` triples is decoded as a UTF-8 byte sequence. -/
def decodeChars : Nat → List Char → Option (List Char)
  | _, [] => some []
  | 0, _ :: _ => none
  | fuel + 1, c :: rest =>
    if c = '%' then
      match pctRun (c :: rest) with
      | some (bs, rem) =>
        match utf8Decode bs, decodeChars fuel rem with
        | some cs, some tail => some (cs ++ tail)
        | _, _ => none
      | none => none
    else
      match decodeChars fuel rest with
      | some tail => some (c :: tail)
      | none => none

/-- Models the source's `decodeURIComponentSafe`: JS `decodeURIComponent`
wrapped in try/catch, returning the input unchanged on failure. -/
def decodeURIComponentSafe (s : String) : String :=
  match decodeChars s.data.length s.data with
  | some cs => ⟨cs⟩
  | none => s

/-! ### Data model (src/utils/image-utils.ts, src/settings.ts) -/

/-- Obsidian `TFile` as seen by the source: path, basename, extension. -/
structure VFile where
  path : String
  basename : String
  extension : String
deriving DecidableEq

/-- Obsidian vault tree node: a `TFile` or a `TFolder` with children. -/
inductive VaultNode where
  | file : VFile → VaultNode
  | folder : String → List VaultNode → VaultNode

/-- The host vault collaborator: the folder tree, the desktop base path
(`adapter.getBasePath()`, empty string when absent) and
`vault.getResourcePath` keyed by file path. -/
structure Vault where
  root : List VaultNode
  basePath : String
  resourceOf : String → String

/-- `ImageItem` from src/utils/image-utils.ts. -/
structure ImageItem where
  file : Option VFile
  relativePath : String
  url : String
  displayName : String
deriving DecidableEq

/-- `ImageItemsResult` from src/utils/image-utils.ts. -/
structure ImageItemsResult where
  items : List ImageItem
  errorMessage : String
deriving DecidableEq

/-- `RemoteIndexItem` from src/utils/image-utils.ts. -/
structure RemoteIndexItem where
  relativePath : String
  name : String
  size : Int
  mtime : Int
deriving DecidableEq

/-- `RemoteIndexResult` from src/utils/image-utils.ts. -/
structure RemoteIndexResult where
  items : List RemoteIndexItem
  errorMessage : String
deriving DecidableEq

/-- `MyPluginSettings` from src/settings.ts. -/
structure MyPluginSettings where
  serverBaseUrl : String
  imageFolderPath : String
  useRemoteIndex : Bool
  authToken : String
  cssVariableName : String
  selectedImagePath : String
  linkedServerEntryId : String
  themeDarkBase00 : String
  themeDarkBase10 : String
deriving DecidableEq

/-- `DEFAULT_SETTINGS` from src/settings.ts. -/
def defaultSettings : MyPluginSettings :=
  ⟨"http://127.0.0.1:3000", "", false, "", "--anp-background-image-dark", "", "",
   "rgba(17, 15, 32, 0.79)", "rgba(17, 15, 32, 0.79)"⟩

/-- Models Obsidian `normalizePath`: forward slashes, collapse runs of
slashes, strip leading and trailing slashes. -/
def normalizePath (s : String) : String :=
  jsJoin '/' ((jsSplit '/' ⟨s.data.map (fun c => if c = '\\' then '/' else c)⟩).filter
    (fun seg => seg ≠ ""))

/-- `IMAGE_EXTENSIONS` from src/utils/image-utils.ts, in insertion order. -/
def imageExtensionsList : List String :=
  ["png", "jpg", "jpeg", "webp", "gif", "bmp", "svg", "avif", "tif", "tiff"]

/-- Models JS `String.prototype.toLowerCase` (ASCII range, which is all the
source compares against). -/
def jsToLower (s : String) : String :=
  ⟨s.data.map Char.toLower⟩

/-- `isImageFile` from src/utils/image-utils.ts. -/
def isImageFile (f : VFile) : Bool :=
  imageExtensionsList.contains (jsToLower f.extension)

/-- `isAbsolutePath` from src/utils/image-utils.ts:
`value.startsWith("/") || /^[A-Za-z]:\//.test(value)`. -/
def isAbsolutePath (value : String) : Bool :=
  strStarts value "/" ||
    (match value.data with
     | a :: b :: c :: _ => a.isAlpha && b = ':' && c = '/'
     | _ => false)

/-- `normalizeAbsolutePath` from src/utils/image-utils.ts. -/
def normalizeAbsolutePath (value : String) : String :=
  let normalized := dropLeading '/' (normalizePath value)
  if strStarts value "/" then "/" ++ normalized else normalized

/-- `resolveVaultFolderPath` from src/utils/image-utils.ts; returns
`(folderPath, errorMessage)`. -/
def resolveVaultFolderPath (v : Vault) (folderPath : String) : String × String :=
  let rawInput := jsTrim folderPath
  if rawInput = "" then ("", "Image folder path is empty.")
  else
    let isAbs := isAbsolutePath rawInput
    let normalizedInput :=
      if isAbs then normalizeAbsolutePath rawInput else normalizePath rawInput
    if isAbs = false then (normalizedInput, "")
    else if v.basePath = "" then ("", "Absolute paths require a desktop vault.")
    else
      let normalizedBase := normalizeAbsolutePath v.basePath
      let baseWithSlash :=
        if strEnds normalizedBase "/" then normalizedBase else normalizedBase ++ "/"
      if normalizedInput ≠ normalizedBase ∧ strStarts normalizedInput baseWithSlash = false then
        ("", "Folder must be inside the vault.")
      else
        let relative := dropLeading '/' (sliceFrom normalizedInput normalizedBase.data.length)
        if relative = "" then ("", "Image folder path resolves to the vault root.")
        else (relative, "")

mutual
/-- `collectImageFiles` from src/utils/image-utils.ts, on one node (folders
recursed in place, image files appended in traversal order). -/
def collectNode : VaultNode → List VFile
  | .file f => if isImageFile f then [f] else []
  | .folder _ cs => collectList cs
/-- `collectImageFiles` over a child list. -/
def collectList : List VaultNode → List VFile
  | [] => []
  | n :: ns => collectNode n ++ collectList ns
end

mutual
/-- All descendant files of a node in traversal order (no extension filter);
used to state what "exactly the image-classified descendants" means. -/
def allFilesNode : VaultNode → List VFile
  | .file f => [f]
  | .folder _ cs => allFilesList cs
/-- All descendant files of a child list. -/
def allFilesList : List VaultNode → List VFile
  | [] => []
  | n :: ns => allFilesNode n ++ allFilesList ns
end

mutual
/-- Models `vault.getAbstractFileByPath`, searching the tree for a node whose
path matches. -/
def findInNode (p : String) : VaultNode → Option VaultNode
  | .file f => if f.path = p then some (.file f) else none
  | .folder q cs => if q = p then some (.folder q cs) else findInList p cs
/-- `getAbstractFileByPath` search over a child list. -/
def findInList (p : String) : List VaultNode → Option VaultNode
  | [] => none
  | n :: ns =>
    match findInNode p n with
    | some r => some r
    | none => findInList p ns
end

/-- `getRelativePath` from src/utils/image-utils.ts. -/
def getRelativePath (folderPath filePath : String) : String :=
  let normalizedFolderPath := normalizePath folderPath
  let pre :=
    if strEnds normalizedFolderPath "/" then normalizedFolderPath
    else normalizedFolderPath ++ "/"
  if strStarts filePath pre then sliceFrom filePath pre.data.length else filePath

/-- `encodePath` from src/utils/image-utils.ts: each `/`-separated segment is
decoded defensively then percent-encoded, separators preserved. -/
def encodePath (path : String) : String :=
  jsJoin '/' ((jsSplit '/' path).map
    (fun seg => encodeURIComponentModel (decodeURIComponentSafe seg)))

/-- `buildUrlFromRelative` from src/utils/image-utils.ts. -/
def buildUrlFromRelative (baseUrl relativePath : String) : String :=
  let trimmedBaseUrl := dropTrailing '/' (jsTrim baseUrl)
  let trimmedRelativePath := dropLeading '/' (jsTrim relativePath)
  if trimmedBaseUrl = "" ∨ trimmedRelativePath = "" then ""
  else trimmedBaseUrl ++ "/" ++ encodePath trimmedRelativePath

/-- `getFilenameFromPath` from src/utils/image-utils.ts. -/
def getFilenameFromPath (pathValue : String) : String :=
  let segments := (jsSplit '/' pathValue).filter (fun seg => seg ≠ "")
  if segments ≠ [] then segments.getLastD "" else pathValue

/-- Comparator collaborator: models `String.prototype.localeCompare`
(negative / zero / positive). -/
def LocaleCompare : Type := String → String → Int

/-- The ascending order induced by a comparator, as used by
`.sort((a, b) => a.displayName.localeCompare(b.displayName))`. -/
def localeLe (lc : LocaleCompare) (a b : String) : Bool :=
  lc a b ≤ 0

/-- Models `Array.prototype.sort` with the display-name comparator (stable,
ascending), as a stable insertion sort. -/
def sortByDisplayName (lc : LocaleCompare) (items : List ImageItem) : List ImageItem :=
  List.insertionSort (fun a b => localeLe lc a.displayName b.displayName = true) items

/-- `getVaultImageItems` from src/utils/image-utils.ts. -/
def getVaultImageItems (lc : LocaleCompare) (v : Vault) (baseUrl folderPath : String) :
    ImageItemsResult :=
  let trimmedBaseUrl := jsTrim baseUrl
  let rawFolderPath := jsTrim folderPath
  if rawFolderPath = "" then ⟨[], "Image folder path is empty."⟩
  else
    let resolved := resolveVaultFolderPath v rawFolderPath
    if resolved.2 ≠ "" then ⟨[], resolved.2⟩
    else
      let trimmedFolderPath := normalizePath resolved.1
      match findInList trimmedFolderPath v.root with
      | some (.folder _ cs) =>
        let files := collectList cs
        let items := (files.map (fun f =>
          let relativePath := getRelativePath trimmedFolderPath f.path
          let url :=
            if trimmedBaseUrl ≠ "" then buildUrlFromRelative trimmedBaseUrl relativePath
            else v.resourceOf f.path
          (⟨some f, relativePath, url, f.basename⟩ : ImageItem))).filter
            (fun item => item.url ≠ "")
        ⟨sortByDisplayName lc items, ""⟩
      | _ => ⟨[], "Folder not found: " ++ trimmedFolderPath⟩

/-- `buildImageItemsFromRelativePaths` from src/utils/image-utils.ts. -/
def buildImageItemsFromRelativePaths (lc : LocaleCompare) (v : Vault) (folderPath : String)
    (relativePaths : List String) (baseUrl : String) : ImageItemsResult :=
  let trimmedBaseUrl := jsTrim baseUrl
  let rawFolderPath := jsTrim folderPath
  let resolved := resolveVaultFolderPath v rawFolderPath
  let useVault := resolved.2 = ""
  if ¬useVault ∧ trimmedBaseUrl = "" then ⟨[], resolved.2⟩
  else
    let normalizedFolder := if useVault then normalizePath resolved.1 else ""
    let items := relativePaths.filterMap (fun rp =>
      let normalizedRelative := dropLeading '/' (jsTrim rp)
      let found : Option VFile :=
        if useVault ∧ normalizedFolder ≠ "" then
          match findInList (normalizePath (normalizedFolder ++ "/" ++ normalizedRelative)) v.root with
          | some (.file f) => some f
          | _ => none
        else none
      let url0 := match found with | some f => v.resourceOf f.path | none => ""
      let url :=
        if url0 = "" ∧ trimmedBaseUrl ≠ "" then
          buildUrlFromRelative trimmedBaseUrl normalizedRelative
        else url0
      if url = "" then none
      else some (⟨found, normalizedRelative, url,
        match found with
        | some f => f.basename
        | none => getFilenameFromPath normalizedRelative⟩ : ImageItem))
    ⟨sortByDisplayName lc items, ""⟩

/-! ### Network-backed resolution (src/utils/image-utils.ts) -/

/-- Response of the `requestUrl` transport collaborator. -/
structure HttpResponse where
  status : Nat
  text : String
deriving DecidableEq

/-- HTTP collaborator, keyed by URL; `none` models a thrown request
exception (the auth header does not change which URL is fetched). -/
def Http : Type := String → Option HttpResponse

/-- Models `URLSearchParams` value encoding (form-urlencoded). -/
def formEncode (s : String) : String :=
  ⟨s.data.flatMap (fun c =>
    if c.isAlpha || c.isDigit || c = '*' || c = '-' || c = '.' || c = '_' then [c]
    else if c = ' ' then ['+']
    else (utf8Bytes c).flatMap pctByte)⟩

/-- The `getRemoteIndexItems` options object. -/
structure IndexOptions where
  authToken : String
  path : String
  recursive : Option Bool
  extensions : List String
deriving DecidableEq

/-- The `{}` default options. -/
def defaultIndexOptions : IndexOptions := ⟨"", "", none, []⟩

/-- The `__index.json` URL built by `getRemoteIndexItems` (query parameters in
insertion order: `ext`, then `path` if truthy, then `recursive=0` if
`recursive === false`). -/
def buildIndexUrl (baseUrl : String) (opts : IndexOptions) : String :=
  let extensions := if opts.extensions ≠ [] then opts.extensions else imageExtensionsList
  let q1 := "ext=" ++ formEncode (jsJoin ',' extensions)
  let q2 := if opts.path ≠ "" then q1 ++ "&path=" ++ formEncode opts.path else q1
  let q3 := if opts.recursive = some false then q2 ++ "&recursive=0" else q2
  dropTrailing '/' (jsTrim baseUrl) ++ "/__index.json?" ++ q3

/-- JSON collaborator for the index body: models `JSON.parse` plus the
`Array.isArray(data?.items)` check. `none` = parse throws; `some none` =
parsed but `items` is not an array; `some (some l)` = the items array. -/
def IndexParse : Type := String → Option (Option (List RemoteIndexItem))

/-- `getRemoteIndexItems` from src/utils/image-utils.ts. -/
def getRemoteIndexItems (http : Http) (parse : IndexParse) (baseUrl : String)
    (opts : IndexOptions) : RemoteIndexResult :=
  if jsTrim baseUrl = "" then ⟨[], "Base URL is empty."⟩
  else
    match http (buildIndexUrl baseUrl opts) with
    | none => ⟨[], "Failed to fetch the JSON index."⟩
    | some r =>
      if r.status < 200 ∨ 300 ≤ r.status then ⟨[], "HTTP error: " ++ toString r.status⟩
      else
        match parse r.text with
        | none => ⟨[], "Failed to fetch the JSON index."⟩
        | some none => ⟨[], ""⟩
        | some (some items) => ⟨items, ""⟩

/-- Result of the host `URL` constructor, split the way the source reads it:
everything before the path (scheme, credentials, host, port), the pathname
(begins with `/` for special schemes), and the serialized query/fragment
tail (`search` + `hash`, empty when absent). `toString()` is the
concatenation of the three. -/
structure UrlParts where
  originAndAuth : String
  pathname : String
  searchAndHash : String
deriving DecidableEq

/-- URL-parser collaborator: models `new URL(s)`; `none` models the thrown
`TypeError` that the source catches. -/
def UrlParse : Type := String → Option UrlParts

/-- Models `URL.prototype.toString` on the split representation. -/
def urlToString (u : UrlParts) : String :=
  u.originAndAuth ++ u.pathname ++ u.searchAndHash

/-- Models `normalizeUrlForRelative`: parse the URL and ensure its pathname
ends in a slash, re-serializing; on a parse failure the catch branch appends
a slash to the raw string if missing. -/
def normalizeUrlForRelative (parse : UrlParse) (url : String) : String :=
  match parse url with
  | some u =>
    let pathname := if strEnds u.pathname "/" then u.pathname else u.pathname ++ "/"
    urlToString { u with pathname := pathname }
  | none => if strEnds url "/" then url else url ++ "/"

/-- DOM collaborator: models the `DOMParser` + `URL` anchor scan of
`getRemoteImageItems` (skipping `../`, query-only and fragment-only links,
extension classification, item construction), applied to the normalized base
URL and the HTML body. Parameterised because it is built entirely from host
builtins. -/
def ExtractItems : Type := String → String → List ImageItem

/-- `getRemoteImageItems` from src/utils/image-utils.ts. -/
def getRemoteImageItems (lc : LocaleCompare) (parse : UrlParse) (http : Http)
    (extract : ExtractItems) (baseUrl : String) (authToken : String) : ImageItemsResult :=
  let trimmedBaseUrl := jsTrim baseUrl
  let keepToken := authToken
  if trimmedBaseUrl = "" then ⟨[], "Base URL is empty."⟩
  else
    match http trimmedBaseUrl with
    | none => ⟨[], "Failed to fetch the directory listing."⟩
    | some r =>
      if r.status < 200 ∨ 300 ≤ r.status then ⟨[], "HTTP error: " ++ toString r.status⟩
      else
        let _ := keepToken
        ⟨sortByDisplayName lc
          (extract (normalizeUrlForRelative parse trimmedBaseUrl) r.text), ""⟩

/-- `getCacheKey` of src/ui/background-picker-overlay.ts (the cached
revision): `mode|baseUrl|folder`. -/
def getCacheKey (s : MyPluginSettings) : String :=
  let mode := if s.useRemoteIndex then "remote" else "vault"
  let baseUrl := if s.useRemoteIndex then jsTrim s.serverBaseUrl else ""
  let folder := jsTrim s.imageFolderPath
  mode ++ "|" ++ baseUrl ++ "|" ++ folder

/-- The image-source selection of `renderGrid` in the non-cached revision of
src/ui/background-picker-overlay.ts (lines 190-200): HTML directory listing
when `useRemoteIndex`, vault scan otherwise. -/
def selectImageSource (lc : LocaleCompare) (parse : UrlParse) (http : Http)
    (extract : ExtractItems) (v : Vault) (settings : MyPluginSettings) : ImageItemsResult :=
  if settings.useRemoteIndex then
    getRemoteImageItems lc parse http extract settings.serverBaseUrl ""
  else getVaultImageItems lc v settings.serverBaseUrl settings.imageFolderPath

/-- The pending render queue `{items, index, token}`. -/
structure RenderQueue where
  items : List ImageItem
  index : Nat
  token : Nat
deriving DecidableEq

/-- Observable overlay state: open flag, render token, pending queue, grid
content, and the cache fields (DOM-only fields such as the selection
highlight are omitted). -/
structure OverlayState where
  isOpen : Bool
  renderToken : Nat
  renderQueue : Option RenderQueue
  grid : List ImageItem
  cachedKey : Option String
  cachedItems : List ImageItem
  cachedError : String
deriving DecidableEq

/-- `close` of the cached overlay revision: advances the render token and
clears the queue (no-op when the overlay is not open). -/
def closeOverlay (s : OverlayState) : OverlayState :=
  if s.isOpen = false then s
  else { s with isOpen := false, renderToken := s.renderToken + 1, renderQueue := none }

/-- `renderGrid` of the cached overlay revision (part of
src/ui/background-picker-overlay.ts, lines 279-331): advances the token,
consults the settings-keyed cache, otherwise resolves via
`getVaultImageItems(app, "", folder)`, stores the outcome unconditionally,
and queues tile rendering on success. Returns the new state, the result used
for display, and whether the resolver ran. -/
def renderGrid (lc : LocaleCompare) (v : Vault) (settings : MyPluginSettings)
    (forceRefresh : Bool) (s : OverlayState) : OverlayState × ImageItemsResult × Bool :=
  if s.isOpen = false then (s, ⟨[], ""⟩, false)
  else
    let token := s.renderToken + 1
    let s1 := { s with renderToken := token, grid := [], renderQueue := none }
    let cacheKey := getCacheKey settings
    let hit := !forceRefresh && s.cachedKey == some cacheKey
    let result :=
      if hit then (⟨s.cachedItems, s.cachedError⟩ : ImageItemsResult)
      else getVaultImageItems lc v "" settings.imageFolderPath
    let invoked := !hit
    if token ≠ s1.renderToken then (s1, result, invoked)
    else if result.errorMessage ≠ "" then
      let s2 := { s1 with cachedKey := some cacheKey, cachedItems := ([] : List ImageItem), cachedError := result.errorMessage }
      (s2, result, invoked)
    else if result.items.length = 0 then
      let s2 := { s1 with cachedKey := some cacheKey, cachedItems := ([] : List ImageItem), cachedError := "" }
      (s2, result, invoked)
    else
      let s2 := { s1 with cachedKey := some cacheKey, cachedItems := result.items, cachedError := "", renderQueue := some ⟨result.items, 0, token⟩ }
      (s2, result, invoked)

/-- `renderTileBatch` of the cached overlay revision (lines 412-446): aborts
when the captured token no longer matches, otherwise appends one batch of at
most 24 tiles and either re-queues or clears the queue. -/
def renderTileBatch (s : OverlayState) : OverlayState :=
  if s.isOpen = false then s
  else
    match s.renderQueue with
    | none => s
    | some q =>
      if q.token ≠ s.renderToken then s
      else
        let take := min 24 (q.items.length - q.index)
        let newGrid := s.grid ++ (q.items.drop q.index).take take
        let newIndex := q.index + take
        if newIndex < q.items.length then
          { s with grid := newGrid, renderQueue := some ⟨q.items, newIndex, q.token⟩ }
        else { s with grid := newGrid, renderQueue := none }

/-- One iteration of the `findBestGridLayout` candidate loop, carrying
`(bestColumns, bestRowHeight, bestArea)`. -/
def layoutStep (count : Nat) (width height aspect gap : ℚ)
    (acc : Nat × ℚ × ℚ) (columns : Nat) : Nat × ℚ × ℚ :=
  let rows := (count + columns - 1) / columns
  let totalGapWidth := gap * ((columns - 1 : Nat) : ℚ)
  let totalGapHeight := gap * ((rows - 1 : Nat) : ℚ)
  let availableWidth := width - totalGapWidth
  let availableHeight := height - totalGapHeight
  if availableWidth ≤ 0 ∨ availableHeight ≤ 0 then acc
  else
    let maxTileWidth := availableWidth / (columns : ℚ)
    let maxTileHeight := availableHeight / (rows : ℚ)
    let tileHeight := min maxTileHeight (maxTileWidth / aspect)
    let tileWidth := tileHeight * aspect
    if tileHeight ≤ 0 ∨ tileWidth ≤ 0 then acc
    else
      let area := tileWidth * tileHeight
      if acc.2.2 < area then (columns, tileHeight, area) else acc

/-- `findBestGridLayout` from src/ui/background-picker-overlay.ts (lines
515-557), with JS numbers modelled as rationals. Returns
`(columns, rowHeight)`. -/
def findBestGridLayout (count : Nat) (width height aspect gap : ℚ) : Nat × ℚ :=
  let acc := ((List.range count).map (· + 1)).foldl
    (layoutStep count width height aspect gap) (1, 0, 0)
  let bestRowHeight :=
    if acc.2.1 = 0 then max ((height - gap * ((count : ℚ) - 1)) / (count : ℚ)) 1
    else acc.2.1
  (acc.1, bestRowHeight)

/-- Code-point lexicographic three-way comparison of character lists. -/
def charListCmp : List Char → List Char → Ordering
  | [], [] => .eq
  | [], _ :: _ => .lt
  | _ :: _, [] => .gt
  | a :: as, b :: bs =>
    if a.toNat < b.toNat then .lt
    else if b.toNat < a.toNat then .gt
    else charListCmp as bs

/-- Concrete locale comparator for witnesses: code-point lexicographic
comparison (what `localeCompare` degenerates to on plain ASCII names). -/
def lcLex : LocaleCompare := fun a b =>
  match charListCmp a.data b.data with
  | .lt => -1
  | .eq => 0
  | .gt => 1

/-! ### Concrete fixtures used by claim theorems and witnesses -/

/-- Settings pair differing only in the auth token (claim C1 fixture). -/
def settingsTokenA : MyPluginSettings :=
  { defaultSettings with useRemoteIndex := true, serverBaseUrl := "http://127.0.0.1:3000", imageFolderPath := "wallpapers", authToken := "tokenA" }

/-- Second half of the claim C1 fixture. -/
def settingsTokenB : MyPluginSettings :=
  { settingsTokenA with authToken := "tokenB" }

/-- A file handle recorded in the cache whose file no longer exists. -/
def staleFile : VFile := ⟨"w/x.png", "x", "png"⟩

/-- Cached entry carrying the stale backing handle. -/
def staleItem : ImageItem := ⟨some staleFile, "x.png", "app://w/x.png", "x"⟩

/-- Vault after the cached file was deleted: folder `w` is now empty. -/
def vaultStale : Vault := ⟨[.folder "w" []], "", fun p => "app://" ++ p⟩

/-- Settings pointing at folder `w` (claim C2 fixture). -/
def staleSettings : MyPluginSettings := { defaultSettings with imageFolderPath := "w" }

/-- Overlay state holding a cache hit for the current key whose entries are
stale (claim C2 fixture). -/
def staleState : OverlayState :=
  ⟨true, 0, none, [], some (getCacheKey staleSettings), [staleItem], ""⟩

/-- Transport fixture: the base URL itself answers 404 while every other URL
(in particular the `__index.json` endpoint) answers 200 with body `IDX`. -/
def http404WithIndex : Http := fun u =>
  if u = "http://h" then some ⟨404, ""⟩ else some ⟨200, "IDX"⟩

/-- JSON fixture: body `IDX` parses to a one-item index. -/
def parseIdx : IndexParse := fun t =>
  if t = "IDX" then some (some [⟨"a.png", "a.png", 1, 1⟩]) else none

/-- URL-parser fixture for the `http://h` origin: what `new URL` returns on
these concrete strings (pathname `/` for the bare origin, the suffix after
the origin otherwise; anything else throws). -/
def urlParseH : UrlParse := fun s =>
  if s = "http://h" then some ⟨"http://h", "/", ""⟩
  else if strStarts s "http://h/" then some ⟨"http://h", sliceFrom s 8, ""⟩
  else none

/-- Remote-index-requested, not-linked settings (claim C3 fixture). -/
def remoteSettings : MyPluginSettings :=
  { defaultSettings with useRemoteIndex := true, serverBaseUrl := "http://h" }

/-- An empty vault. -/
def emptyVault : Vault := ⟨[], "", fun _ => ""⟩

/-- Fixture: a desktop vault whose filesystem base path is `/base`. -/
def vaultDesk : Vault := ⟨[], "/base", fun _ => ""⟩

/-- Scenario fixture for C6: folder `w` containing `a.png`, `b.txt`, `c.jpg`. -/
def vaultScenario : Vault :=
  ⟨[.folder "w" [.file ⟨"w/a.png", "a", "png"⟩, .file ⟨"w/b.txt", "b", "txt"⟩,
    .file ⟨"w/c.jpg", "c", "jpg"⟩]], "", fun pth => "app://" ++ pth⟩

/-- Loop invariant of the layout optimizer: the best column count stays in
`[1, count]` and the best row height is either still unset (0) or positive. -/
def LayoutInv (count : Nat) (acc : Nat × ℚ × ℚ) : Prop :=
  1 ≤ acc.1 ∧ acc.1 ≤ count ∧ (acc.2.1 = 0 ∨ 0 < acc.2.1)

/-- Claim C1: the cache key was claimed to be a pure function of the five
inputs (mode, base URL, auth token, folder path, whitelist fingerprint) with
any single change — in particular of the auth token — changing the key. The
code's `getCacheKey` derives the key from mode, base URL and folder only:
two configurations that differ only in the auth token produce the same key. -/
theorem c1_cache_key_ignores_auth_token :
    settingsTokenA.authToken ≠ settingsTokenB.authToken ∧
    getCacheKey settingsTokenA = getCacheKey settingsTokenB := by
  constructor
  · decide
  · rfl

/-- Claim C2: a cache hit was claimed to be trusted only after verifying that
every cached entry's backing file still exists. In the code the hit path
returns the cached entries directly: with the backing file deleted from the
vault (`findInList` finds nothing), the stale cached result is still served
and the resolver is not invoked. -/
theorem c2_stale_cache_hit_served_without_check :
    (findInList staleFile.path vaultStale.root).isNone = true ∧
    (renderGrid lcLex vaultStale staleSettings false staleState).2.2 = false ∧
    (renderGrid lcLex vaultStale staleSettings false staleState).2.1 = ⟨[staleItem], ""⟩ := by
  refine ⟨rfl, by decide, by decide⟩

/-- Claim C3: with no linked server and remote index requested, resolution
was claimed to attempt the JSON `__index.json` index first and fall back to
the HTML listing only on failure. The code's `renderGrid` goes straight to
the HTML listing: against a server whose JSON index would succeed but whose
directory listing answers 404, the final result is the HTML failure
`HTTP error: 404`, while `getRemoteIndexItems` on the same configuration
succeeds — the JSON attempt is never made. -/
theorem c3_json_index_never_attempted :
    selectImageSource lcLex urlParseH http404WithIndex (fun _ _ => []) emptyVault remoteSettings
      = ⟨[], "HTTP error: 404"⟩ ∧
    (getRemoteIndexItems http404WithIndex parseIdx remoteSettings.serverBaseUrl
      defaultIndexOptions).errorMessage = "" := by
  refine ⟨by decide, by decide⟩

/-- Resolver invariant: an error result always carries an empty item list. -/
theorem getVaultImageItems_items_of_error (lc : LocaleCompare) (v : Vault) (b f : String)
    (h : (getVaultImageItems lc v b f).errorMessage ≠ "") :
    (getVaultImageItems lc v b f).items = [] := by
  unfold getVaultImageItems
  dsimp only
  split
  · rfl
  · rename_i hc1
    split
    · rfl
    · rename_i hc2
      split
      · rename_i a cs heq
        refine absurd ?_ h
        unfold getVaultImageItems
        dsimp only
        rw [if_neg hc1, if_neg hc2, heq]
      · rfl

/-- A pending batch whose captured token no longer matches leaves the whole
overlay state unchanged. -/
theorem renderTileBatch_stale_noop (s : OverlayState) (q : RenderQueue)
    (hq : s.renderQueue = some q) (hne : q.token ≠ s.renderToken) :
    renderTileBatch s = s := by
  unfold renderTileBatch
  cases hso : s.isOpen
  · simp
  · simp only [hso, Bool.true_eq_false, if_false]
    rw [hq]
    dsimp only
    rw [if_pos hne]

/-- Claim C4: with `forceRefresh` false and a matching stored key, the
get-or-resolve pass returns the stored result without invoking the resolver;
otherwise it invokes the resolver, stores the new key and result
unconditionally (also on error), and returns that new result. -/
theorem c4_get_or_resolve (lc : LocaleCompare) (v : Vault) (settings : MyPluginSettings)
    (forceRefresh : Bool) (s : OverlayState) (hopen : s.isOpen = true) :
    ((forceRefresh = false ∧ s.cachedKey = some (getCacheKey settings)) →
      (renderGrid lc v settings forceRefresh s).2.2 = false ∧
      (renderGrid lc v settings forceRefresh s).2.1 = ⟨s.cachedItems, s.cachedError⟩) ∧
    (¬(forceRefresh = false ∧ s.cachedKey = some (getCacheKey settings)) →
      (renderGrid lc v settings forceRefresh s).2.2 = true ∧
      (renderGrid lc v settings forceRefresh s).2.1
        = getVaultImageItems lc v "" settings.imageFolderPath ∧
      (renderGrid lc v settings forceRefresh s).1.cachedKey = some (getCacheKey settings) ∧
      (renderGrid lc v settings forceRefresh s).1.cachedItems
        = (renderGrid lc v settings forceRefresh s).2.1.items ∧
      (renderGrid lc v settings forceRefresh s).1.cachedError
        = (renderGrid lc v settings forceRefresh s).2.1.errorMessage) := by
  have hbit : (!forceRefresh && s.cachedKey == some (getCacheKey settings)) = true
      ↔ (forceRefresh = false ∧ s.cachedKey = some (getCacheKey settings)) := by
    constructor
    · intro h
      have h1 := (Bool.and_eq_true _ _).mp h
      refine ⟨?_, eq_of_beq h1.2⟩
      cases forceRefresh
      · rfl
      · exact absurd h1.1 (by decide)
    · intro h
      rw [h.1, h.2]
      simp
  have htok : ¬(s.renderToken + 1 ≠ s.renderToken + 1) := by simp
  constructor
  · intro hhit
    have hb := hbit.mpr hhit
    unfold renderGrid
    dsimp only
    rw [hopen]
    simp only [Bool.true_eq_false, if_false, hb, if_true]
    rw [if_neg htok]
    split
    · exact ⟨rfl, rfl⟩
    · split
      · exact ⟨rfl, rfl⟩
      · exact ⟨rfl, rfl⟩
  · intro hmiss
    have hb : (!forceRefresh && s.cachedKey == some (getCacheKey settings)) = false := by
      cases hx : (!forceRefresh && s.cachedKey == some (getCacheKey settings))
      · rfl
      · exact absurd (hbit.mp hx) hmiss
    unfold renderGrid
    dsimp only
    rw [hopen]
    simp only [Bool.true_eq_false, if_false, hb, Bool.false_eq_true]
    rw [if_neg htok]
    split
    · rename_i herr
      refine ⟨rfl, rfl, rfl, ?_, rfl⟩
      exact (getVaultImageItems_items_of_error lc v "" settings.imageFolderPath herr).symm
    · split
      · rename_i hne hlen
        refine ⟨rfl, rfl, rfl, ?_, ?_⟩
        · exact (List.length_eq_zero.mp hlen).symm
        · simp only [ne_eq, Decidable.not_not] at hne
          exact hne.symm
      · rename_i hne _
        refine ⟨rfl, rfl, rfl, rfl, ?_⟩
        simp only [ne_eq, Decidable.not_not] at hne
        exact hne.symm

/-- Witness for C4: concrete cache miss (no stored key) invokes the
resolver; concrete key hit with `forceRefresh = false` does not. -/
theorem c4_get_or_resolve_witness :
    (renderGrid lcLex emptyVault defaultSettings false
      ⟨true, 0, none, [], none, [], ""⟩).2.2 = true ∧
    (renderGrid lcLex emptyVault defaultSettings false
      ⟨true, 5, none, [], some (getCacheKey defaultSettings), [], "cached error"⟩).2.2
        = false :=
  ⟨((c4_get_or_resolve lcLex emptyVault defaultSettings false
      ⟨true, 0, none, [], none, [], ""⟩ rfl).2 (by simp)).1,
   ((c4_get_or_resolve lcLex emptyVault defaultSettings false
      ⟨true, 5, none, [], some (getCacheKey defaultSettings), [], "cached error"⟩ rfl).1
      ⟨rfl, rfl⟩).1⟩

/-- Claim C5: `renderGrid` and `close` each advance the render token by
exactly one when the picker is open; a pending batch whose captured token is
stale is a complete no-op; only a batch whose queue token equals the current
token can change the grid. -/
theorem c5_render_token (lc : LocaleCompare) (v : Vault) (settings : MyPluginSettings)
    (forceRefresh : Bool) (s : OverlayState) :
    (s.isOpen = true →
      (renderGrid lc v settings forceRefresh s).1.renderToken = s.renderToken + 1) ∧
    (s.isOpen = true → (closeOverlay s).renderToken = s.renderToken + 1) ∧
    (∀ q, s.renderQueue = some q → q.token ≠ s.renderToken → renderTileBatch s = s) ∧
    ((renderTileBatch s).grid ≠ s.grid →
      ∃ q, s.renderQueue = some q ∧ q.token = s.renderToken) := by
  have htok : ¬(s.renderToken + 1 ≠ s.renderToken + 1) := by simp
  refine ⟨?_, ?_, ?_, ?_⟩
  · intro hopen
    cases hx : (!forceRefresh && s.cachedKey == some (getCacheKey settings))
    · unfold renderGrid
      dsimp only
      rw [hopen]
      simp only [Bool.true_eq_false, if_false, hx, Bool.false_eq_true]
      rw [if_neg htok]
      split
      · rfl
      · split
        · rfl
        · rfl
    · unfold renderGrid
      dsimp only
      rw [hopen]
      simp only [Bool.true_eq_false, if_false, hx, if_true]
      rw [if_neg htok]
      split
      · rfl
      · split
        · rfl
        · rfl
  · intro hopen
    unfold closeOverlay
    rw [hopen]
    simp
  · exact fun q hq hne => renderTileBatch_stale_noop s q hq hne
  · intro hg
    cases hso : s.isOpen
    · exfalso
      apply hg
      unfold renderTileBatch
      rw [hso]
      rfl
    · cases hq : s.renderQueue with
      | none =>
        exfalso
        apply hg
        unfold renderTileBatch
        rw [hso, hq]
        simp
      | some q =>
        by_cases ht : q.token = s.renderToken
        · exact ⟨q, hq ▸ rfl, ht⟩
        · exact absurd (congrArg OverlayState.grid
            (renderTileBatch_stale_noop s q hq ht)) hg

/-- Witness for C5: at a concrete open state with a stale queued token, the
token advances from 3 to 4 on `renderGrid` and on `close`, and the stale
batch changes nothing. -/
theorem c5_render_token_witness :
    (renderGrid lcLex emptyVault defaultSettings false
      ⟨true, 3, some ⟨[], 0, 1⟩, [], none, [], ""⟩).1.renderToken = 3 + 1 ∧
    (closeOverlay ⟨true, 3, some ⟨[], 0, 1⟩, [], none, [], ""⟩).renderToken = 3 + 1 ∧
    renderTileBatch ⟨true, 3, some ⟨[], 0, 1⟩, [], none, [], ""⟩
      = ⟨true, 3, some ⟨[], 0, 1⟩, [], none, [], ""⟩ :=
  ⟨(c5_render_token lcLex emptyVault defaultSettings false
      ⟨true, 3, some ⟨[], 0, 1⟩, [], none, [], ""⟩).1 rfl,
   (c5_render_token lcLex emptyVault defaultSettings false
      ⟨true, 3, some ⟨[], 0, 1⟩, [], none, [], ""⟩).2.1 rfl,
   (c5_render_token lcLex emptyVault defaultSettings false
      ⟨true, 3, some ⟨[], 0, 1⟩, [], none, [], ""⟩).2.2.1 ⟨[], 0, 1⟩ rfl (by decide)⟩

/-- Claim C10: `buildImageItemsFromRelativePaths` reports an error exactly
when the folder fails to resolve AND the trimmed base URL is empty; in every
other case the error message is empty (a folder-resolution failure with a
usable base URL, or relative paths that all fail to produce a file or URL,
is silently swallowed into a zero-item success). -/
theorem c10_swallowed_folder_error (lc : LocaleCompare) (v : Vault) (folderPath : String)
    (rels : List String) (baseUrl : String) :
    ((buildImageItemsFromRelativePaths lc v folderPath rels baseUrl).errorMessage ≠ ""
      ↔ ((resolveVaultFolderPath v (jsTrim folderPath)).2 ≠ "" ∧ jsTrim baseUrl = "")) ∧
    ((buildImageItemsFromRelativePaths lc v folderPath rels baseUrl).errorMessage ≠ "" →
      (buildImageItemsFromRelativePaths lc v folderPath rels baseUrl).items = []) := by
  unfold buildImageItemsFromRelativePaths
  dsimp only
  split
  · rename_i hcond
    refine ⟨⟨fun _ => ⟨hcond.1, hcond.2⟩, fun _ => hcond.1⟩, fun _ => rfl⟩
  · rename_i hcond
    rw [not_and_or] at hcond
    constructor
    · constructor
      · intro h
        exact absurd rfl h
      · intro h
        rcases hcond with hv | hb
        · rw [Decidable.not_not] at hv
          exact absurd hv h.1
        · exact absurd h.2 hb
    · intro h
      exact absurd rfl h

/-- Witness for C10: empty folder path with empty base URL is the error
case; a whitelist path that exists nowhere with a resolvable folder is a
zero-item success. -/
theorem c10_swallowed_folder_error_witness :
    (buildImageItemsFromRelativePaths lcLex emptyVault "" [] "").errorMessage ≠ "" ∧
    (buildImageItemsFromRelativePaths lcLex emptyVault "w" ["missing.png"] "").errorMessage
      = "" ∧
    (buildImageItemsFromRelativePaths lcLex emptyVault "w" ["missing.png"] "").items = [] :=
  ⟨(c10_swallowed_folder_error lcLex emptyVault "" [] "").1.mpr ⟨by decide, rfl⟩,
   by decide, by decide⟩

/-- Claim C7: an absolute configured folder path is accepted only on a
desktop vault (non-empty base path) and only as a strict descendant of the
base path: no base path gives the desktop-required error, a path outside the
base gives the inside-the-vault error, the base path itself gives the
vault-root error, and acceptance implies strict descendance. -/
theorem c7_absolute_path_validation (v : Vault) (input : String)
    (habs : isAbsolutePath (jsTrim input) = true) :
    (v.basePath = "" →
      resolveVaultFolderPath v input = ("", "Absolute paths require a desktop vault.")) ∧
    (v.basePath ≠ "" →
      ((normalizeAbsolutePath (jsTrim input) ≠ normalizeAbsolutePath v.basePath ∧
        strStarts (normalizeAbsolutePath (jsTrim input))
          (if strEnds (normalizeAbsolutePath v.basePath) "/" then normalizeAbsolutePath v.basePath
           else normalizeAbsolutePath v.basePath ++ "/") = false) →
        resolveVaultFolderPath v input = ("", "Folder must be inside the vault.")) ∧
      (normalizeAbsolutePath (jsTrim input) = normalizeAbsolutePath v.basePath →
        resolveVaultFolderPath v input = ("", "Image folder path resolves to the vault root.")) ∧
      ((resolveVaultFolderPath v input).2 = "" →
        normalizeAbsolutePath (jsTrim input) ≠ normalizeAbsolutePath v.basePath ∧
        strStarts (normalizeAbsolutePath (jsTrim input))
          (if strEnds (normalizeAbsolutePath v.basePath) "/" then normalizeAbsolutePath v.basePath
           else normalizeAbsolutePath v.basePath ++ "/") = true)) := by
  have hraw : jsTrim input ≠ "" := by
    intro h
    rw [h] at habs
    exact absurd habs (by decide)
  have hroot : normalizeAbsolutePath (jsTrim input) = normalizeAbsolutePath v.basePath →
      dropLeading '/' (sliceFrom (normalizeAbsolutePath (jsTrim input))
        (normalizeAbsolutePath v.basePath).data.length) = "" := by
    intro he
    rw [he]
    show dropLeading '/' (⟨(normalizeAbsolutePath v.basePath).data.drop
      (normalizeAbsolutePath v.basePath).data.length⟩ : String) = ""
    rw [List.drop_length]
    rfl
  constructor
  · intro hbp
    unfold resolveVaultFolderPath
    dsimp only
    rw [if_neg hraw]
    simp only [habs, Bool.true_eq_false, if_false, eq_self_iff_true, if_true]
    rw [if_pos hbp]
  · intro hbp
    refine ⟨?_, ?_, ?_⟩
    · intro hcond
      unfold resolveVaultFolderPath
      dsimp only
      rw [if_neg hraw]
      simp only [habs, Bool.true_eq_false, if_false, eq_self_iff_true, if_true]
      rw [if_neg hbp, if_pos hcond]
    · intro he
      unfold resolveVaultFolderPath
      dsimp only
      rw [if_neg hraw]
      simp only [habs, Bool.true_eq_false, if_false, eq_self_iff_true, if_true]
      rw [if_neg hbp]
      rw [if_neg (by
        intro hc
        exact absurd he hc.1)]
      rw [if_pos (hroot he)]
    · intro hok
      unfold resolveVaultFolderPath at hok
      dsimp only at hok
      rw [if_neg hraw] at hok
      simp only [habs, Bool.true_eq_false, if_false, eq_self_iff_true, if_true] at hok
      rw [if_neg hbp] at hok
      by_cases hc : (normalizeAbsolutePath (jsTrim input) ≠ normalizeAbsolutePath v.basePath ∧
          strStarts (normalizeAbsolutePath (jsTrim input))
            (if strEnds (normalizeAbsolutePath v.basePath) "/" then normalizeAbsolutePath v.basePath
             else normalizeAbsolutePath v.basePath ++ "/") = false)
      · rw [if_pos hc] at hok
        exact absurd hok (by decide)
      · rw [if_neg hc] at hok
        have hne : normalizeAbsolutePath (jsTrim input) ≠ normalizeAbsolutePath v.basePath := by
          intro he
          rw [if_pos (hroot he)] at hok
          exact absurd hok (by decide)
        refine ⟨hne, ?_⟩
        rw [not_and_or] at hc
        rcases hc with h1 | h2
        · exact absurd hne (by simpa using h1)
        · cases hs : strStarts (normalizeAbsolutePath (jsTrim input))
            (if strEnds (normalizeAbsolutePath v.basePath) "/" then normalizeAbsolutePath v.basePath
             else normalizeAbsolutePath v.basePath ++ "/")
          · exact absurd hs h2
          · rfl

/-- Witness for C7: on a vault with base path `/base`, `/out/x` is rejected
as outside the vault, `/base` itself is rejected as the vault root, and
without a base path `/base/sub` requires a desktop vault. -/
theorem c7_absolute_path_validation_witness :
    isAbsolutePath (jsTrim "/out/x") = true ∧
    resolveVaultFolderPath vaultDesk "/out/x" = ("", "Folder must be inside the vault.") ∧
    resolveVaultFolderPath vaultDesk "/base" = ("", "Image folder path resolves to the vault root.") ∧
    resolveVaultFolderPath emptyVault "/base/sub" = ("", "Absolute paths require a desktop vault.") :=
  ⟨by decide,
   ((c7_absolute_path_validation vaultDesk "/out/x" (by decide)).2 (by decide)).1 (by decide),
   ((c7_absolute_path_validation vaultDesk "/base" (by decide)).2 (by decide)).2.1 (by decide),
   (c7_absolute_path_validation emptyVault "/base/sub" (by decide)).1 rfl⟩

/-- One candidate step preserves the layout invariant. -/
theorem layoutStep_inv (count : Nat) (width height aspect gap : ℚ)
    (acc : Nat × ℚ × ℚ) (columns : Nat) (h1 : 1 ≤ columns) (h2 : columns ≤ count)
    (hP : LayoutInv count acc) :
    LayoutInv count (layoutStep count width height aspect gap acc columns) := by
  unfold layoutStep
  dsimp only
  split
  · exact hP
  · split
    · exact hP
    · rename_i hguard
      split
      · rename_i hlt
        push_neg at hguard
        exact ⟨h1, h2, Or.inr hguard.1⟩
      · exact hP

/-- The whole candidate loop preserves the layout invariant. -/
theorem layoutFold_inv (count : Nat) (width height aspect gap : ℚ)
    (l : List Nat) (acc : Nat × ℚ × ℚ)
    (hl : ∀ c ∈ l, 1 ≤ c ∧ c ≤ count) (hP : LayoutInv count acc) :
    LayoutInv count (l.foldl (layoutStep count width height aspect gap) acc) := by
  induction l generalizing acc with
  | nil => exact hP
  | cons c cs ih =>
    have hc := hl c (List.mem_cons_self c cs)
    exact ih _ (fun x hx => hl x (List.mem_cons_of_mem c hx))
      (layoutStep_inv count width height aspect gap acc c hc.1 hc.2 hP)

/-- Claim C9: for `count ≥ 1`, positive aspect and non-negative gap,
`findBestGridLayout` returns a column count in `[1, count]` and a strictly
positive row height (the degenerate fallback is floored at 1); for
`count = 1` the column count is 1. -/
theorem c9_layout_bounds (count : Nat) (width height aspect gap : ℚ)
    (hc : 1 ≤ count) (ha : 0 < aspect) (hg : 0 ≤ gap) :
    1 ≤ (findBestGridLayout count width height aspect gap).1 ∧
    (findBestGridLayout count width height aspect gap).1 ≤ count ∧
    0 < (findBestGridLayout count width height aspect gap).2 ∧
    (count = 1 → (findBestGridLayout count width height aspect gap).1 = 1) := by
  have hmain : LayoutInv count (((List.range count).map (· + 1)).foldl
      (layoutStep count width height aspect gap) (1, 0, 0)) := by
    refine layoutFold_inv count width height aspect gap _ _ ?_ ⟨le_refl 1, hc, Or.inl rfl⟩
    intro c hcm
    rcases List.mem_map.mp hcm with ⟨i, hi, rfl⟩
    exact ⟨Nat.succ_le_succ (Nat.zero_le i), Nat.succ_le_of_lt (List.mem_range.mp hi)⟩
  unfold findBestGridLayout
  dsimp only
  refine ⟨hmain.1, hmain.2.1, ?_, ?_⟩
  · split
    · exact lt_of_lt_of_le zero_lt_one (le_max_right _ 1)
    · rename_i hnz
      rcases hmain.2.2 with h0 | hpos
      · exact absurd h0 hnz
      · exact hpos
  · intro h1
    subst h1
    exact le_antisymm hmain.2.1 hmain.1

/-- Witness for C9: a 5-item layout in a 300×200 box has positive row height,
and a single item always gets a single column. -/
theorem c9_layout_bounds_witness :
    0 < (findBestGridLayout 5 300 200 2 10).2 ∧
    (findBestGridLayout 1 300 200 2 10).1 = 1 :=
  ⟨(c9_layout_bounds 5 300 200 2 10 (by decide) (by norm_num) (by norm_num)).2.2.1,
   (c9_layout_bounds 1 300 200 2 10 (by decide) (by norm_num) (by norm_num)).2.2.2 rfl⟩

/-- Reversing the argument order reverses the three-way comparison. -/
theorem charListCmp_swap (a : List Char) : ∀ b, charListCmp b a = (charListCmp a b).swap := by
  induction a with
  | nil =>
    intro b
    cases b <;> rfl
  | cons x xs ih =>
    intro b
    cases b with
    | nil => rfl
    | cons y ys =>
      unfold charListCmp
      rcases Nat.lt_trichotomy x.toNat y.toNat with h | h | h
      · have h' : ¬ y.toNat < x.toNat := by omega
        simp only [if_pos h, if_neg h']
        rfl
      · have h1 : ¬ x.toNat < y.toNat := by omega
        have h2 : ¬ y.toNat < x.toNat := by omega
        simp only [if_neg h1, if_neg h2]
        exact ih ys
      · have h' : ¬ x.toNat < y.toNat := by omega
        simp only [if_pos h, if_neg h']
        rfl

/-- Transitivity of the lexicographic "not greater" relation. -/
theorem charListCmp_trans_ngt (a : List Char) :
    ∀ b c, charListCmp a b ≠ .gt → charListCmp b c ≠ .gt → charListCmp a c ≠ .gt := by
  induction a with
  | nil =>
    intro b c _ _
    cases c <;> simp [charListCmp]
  | cons x xs ih =>
    intro b c h1 h2
    cases b with
    | nil => exact absurd rfl h1
    | cons y ys =>
      cases c with
      | nil => exact absurd rfl h2
      | cons z zs =>
        unfold charListCmp at h1 h2 ⊢
        rcases Nat.lt_trichotomy x.toNat y.toNat with hxy | hxy | hxy
        · rcases Nat.lt_trichotomy y.toNat z.toNat with hyz | hyz | hyz
          · simp only [if_pos (show x.toNat < z.toNat by omega)]
            simp
          · simp only [if_pos (show x.toNat < z.toNat by omega)]
            simp
          · rw [if_neg (show ¬ y.toNat < z.toNat by omega)] at h2
            rw [if_pos hyz] at h2
            exact absurd rfl h2
        · rw [if_neg (show ¬ x.toNat < y.toNat by omega)] at h1
          rw [if_neg (show ¬ y.toNat < x.toNat by omega)] at h1
          rcases Nat.lt_trichotomy y.toNat z.toNat with hyz | hyz | hyz
          · simp only [if_pos (show x.toNat < z.toNat by omega)]
            simp
          · rw [if_neg (show ¬ y.toNat < z.toNat by omega)] at h2
            rw [if_neg (show ¬ z.toNat < y.toNat by omega)] at h2
            simp only [if_neg (show ¬ x.toNat < z.toNat by omega),
              if_neg (show ¬ z.toNat < x.toNat by omega)]
            exact ih ys zs h1 h2
          · rw [if_neg (show ¬ y.toNat < z.toNat by omega)] at h2
            rw [if_pos hyz] at h2
            exact absurd rfl h2
        · rw [if_neg (show ¬ x.toNat < y.toNat by omega)] at h1
          rw [if_pos hxy] at h1
          exact absurd rfl h1

/-- The comparator order of `lcLex` is "not greater" on character lists. -/
theorem localeLe_lcLex_iff (a b : String) :
    localeLe lcLex a b = true ↔ charListCmp a.data b.data ≠ .gt := by
  unfold localeLe lcLex
  cases h : charListCmp a.data b.data <;> simp

/-- `lcLex` induces a transitive comparator order. -/
theorem lcLex_le_trans (a b c : String) (h1 : localeLe lcLex a b = true)
    (h2 : localeLe lcLex b c = true) : localeLe lcLex a c = true :=
  (localeLe_lcLex_iff a c).mpr
    (charListCmp_trans_ngt a.data b.data c.data
      ((localeLe_lcLex_iff a b).mp h1) ((localeLe_lcLex_iff b c).mp h2))

/-- `lcLex` induces a total comparator order. -/
theorem lcLex_le_total (a b : String) :
    localeLe lcLex a b = true ∨ localeLe lcLex b a = true := by
  rcases h : charListCmp a.data b.data with _ | _ | _
  · exact Or.inl ((localeLe_lcLex_iff a b).mpr (by simp [h]))
  · exact Or.inl ((localeLe_lcLex_iff a b).mpr (by simp [h]))
  · refine Or.inr ((localeLe_lcLex_iff b a).mpr ?_)
    rw [charListCmp_swap a.data b.data, h]
    decide

mutual
/-- The recursive scan collects exactly the image-classified descendants. -/
theorem collectNode_eq_filter : ∀ n, collectNode n = (allFilesNode n).filter isImageFile
  | .file f => by
    unfold collectNode allFilesNode
    by_cases h : isImageFile f
    · simp [h]
    · simp [h]
  | .folder p cs => by
    unfold collectNode allFilesNode
    exact collectList_eq_filter cs
/-- List version of `collectNode_eq_filter`. -/
theorem collectList_eq_filter : ∀ ns, collectList ns = (allFilesList ns).filter isImageFile
  | [] => rfl
  | n :: ns => by
    unfold collectList allFilesList
    rw [List.filter_append, collectNode_eq_filter n, collectList_eq_filter ns]
end

/-- Claim C6: on a resolvable folder, the local recursive scan succeeds and
returns exactly the descendant files whose extension is (case-insensitively)
in the fixed image-extension set — as a permutation of their image-item form
— sorted ascending by display name under the comparator order. -/
theorem c6_vault_scan (lc : LocaleCompare) (v : Vault) (folderPath p : String)
    (cs : List VaultNode)
    (hne : ¬(jsTrim folderPath = ""))
    (hres : (resolveVaultFolderPath v (jsTrim folderPath)).2 = "")
    (hfind : findInList (normalizePath (resolveVaultFolderPath v (jsTrim folderPath)).1) v.root
      = some (VaultNode.folder p cs))
    (hurl : ∀ f ∈ collectList cs, v.resourceOf f.path ≠ "")
    (htrans : ∀ a b c, localeLe lc a b = true → localeLe lc b c = true →
      localeLe lc a c = true)
    (htot : ∀ a b, localeLe lc a b = true ∨ localeLe lc b a = true) :
    (getVaultImageItems lc v "" folderPath).errorMessage = "" ∧
    (getVaultImageItems lc v "" folderPath).items.Perm
      (((allFilesList cs).filter isImageFile).map (fun f =>
        (⟨some f,
          getRelativePath (normalizePath (resolveVaultFolderPath v (jsTrim folderPath)).1) f.path,
          v.resourceOf f.path, f.basename⟩ : ImageItem))) ∧
    List.Pairwise (fun a b => localeLe lc a.displayName b.displayName = true)
      (getVaultImageItems lc v "" folderPath).items := by
  have hresne : ¬((resolveVaultFolderPath v (jsTrim folderPath)).2 ≠ "") := by simp [hres]
  have hcond : ¬((jsTrim "" : String) ≠ "") := by decide
  have hval : getVaultImageItems lc v "" folderPath
      = ⟨sortByDisplayName lc ((collectList cs).map (fun f =>
          (⟨some f,
            getRelativePath (normalizePath (resolveVaultFolderPath v (jsTrim folderPath)).1) f.path,
            v.resourceOf f.path, f.basename⟩ : ImageItem))), ""⟩ := by
    unfold getVaultImageItems
    dsimp only
    rw [if_neg hne, if_neg hresne, hfind]
    dsimp only
    simp only [if_neg hcond]
    congr 1
    refine congrArg (sortByDisplayName lc) ?_
    refine List.filter_eq_self.mpr ?_
    intro a ha
    rcases List.mem_map.mp ha with ⟨f, hf, rfl⟩
    simpa using hurl f hf
  rw [hval]
  dsimp only
  refine ⟨rfl, ?_, ?_⟩
  · unfold sortByDisplayName
    refine (List.perm_insertionSort _ _).trans ?_
    rw [collectList_eq_filter]
  · unfold sortByDisplayName
    haveI : IsTotal ImageItem (fun a b => localeLe lc a.displayName b.displayName = true) :=
      ⟨fun a b => htot a.displayName b.displayName⟩
    haveI : IsTrans ImageItem (fun a b => localeLe lc a.displayName b.displayName = true) :=
      ⟨fun a b c hab hbc => htrans a.displayName b.displayName c.displayName hab hbc⟩
    exact List.sorted_insertionSort _ _

/-- Witness for C6: the scenario folder yields exactly `a.png` then `c.jpg`,
with no error, sorted by display name. -/
theorem c6_vault_scan_witness :
    (getVaultImageItems lcLex vaultScenario "" "w").items.map (fun i => i.relativePath)
      = ["a.png", "c.jpg"] ∧
    (getVaultImageItems lcLex vaultScenario "" "w").errorMessage = "" ∧
    List.Pairwise (fun a b => localeLe lcLex a.displayName b.displayName = true)
      (getVaultImageItems lcLex vaultScenario "" "w").items :=
  ⟨by decide,
   (c6_vault_scan lcLex vaultScenario "w" "w"
      [.file ⟨"w/a.png", "a", "png"⟩, .file ⟨"w/b.txt", "b", "txt"⟩,
       .file ⟨"w/c.jpg", "c", "jpg"⟩]
      (by decide) (by decide) rfl (by decide) lcLex_le_trans lcLex_le_total).1,
   (c6_vault_scan lcLex vaultScenario "w" "w"
      [.file ⟨"w/a.png", "a", "png"⟩, .file ⟨"w/b.txt", "b", "txt"⟩,
       .file ⟨"w/c.jpg", "c", "jpg"⟩]
      (by decide) (by decide) rfl (by decide) lcLex_le_trans lcLex_le_total).2.2⟩

/-- `dropWhile` never lengthens a list. -/
theorem dropWhile_length_le (p : Char → Bool) (l : List Char) :
    (l.dropWhile p).length ≤ l.length := by
  induction l with
  | nil => simp
  | cons b u ih =>
    rw [List.dropWhile_cons]
    split
    · exact le_trans ih (Nat.le_succ _)
    · exact le_refl _

/-- A nonempty string unchanged by trailing-slash stripping does not end in a
slash. -/
theorem strEnds_false_of_dropTrailing_fix (s : String)
    (hfix : dropTrailing '/' s = s) (hne : s ≠ "") : strEnds s "/" = false := by
  have hlist : s.data.reverse.dropWhile (· = '/') = s.data.reverse := by
    have h1 : (s.data.reverse.dropWhile (· = '/')).reverse = s.data :=
      congrArg String.data hfix
    exact List.reverse_inj.mp (by rw [List.reverse_reverse, h1])
  unfold strEnds
  cases hr : s.data.reverse with
  | nil =>
    exfalso
    apply hne
    apply String.ext
    have := congrArg List.reverse hr
    rw [List.reverse_reverse] at this
    simpa using this
  | cons a t =>
    by_cases hac : a = '/'
    · exfalso
      rw [hr, List.dropWhile_cons, if_pos (by simp [hac])] at hlist
      have hlen : t.dropWhile (· = '/') = a :: t := hlist
      have h1 := dropWhile_length_le (· = '/') t
      rw [hlen] at h1
      simp at h1
    · show ("/".data.isSuffixOf s.data) = false
      unfold List.isSuffixOf
      show (['/'].reverse.isPrefixOf s.data.reverse) = false
      rw [hr]
      show (['/'].isPrefixOf (a :: t)) = false
      simp [List.isPrefixOf, hac]
      intro hca
      exact absurd hca.symm hac

end DivPlus
